import Mathlib

/-
A Lean 4 model of the live-class WebRTC signaling core of the
edupravahaa web client (src/Frontend/dist/src/views/apps/liveClass/).

The source file index.js contains two divergent implementations of the
same signaling logic (separated in the file by a document marker).  We
embed both where they differ:
  * `handleSignalingConn`  — the first implementation (lines 312-366),
    which buffers ICE candidates arriving before the remote description
    (`pc.pendingCandidates`) and flushes them in `processPendingCandidates`;
  * `handleSignalingConn2` — the second implementation (lines 1019-1050),
    which applies every candidate immediately via `addIceCandidate`.

SDP blobs, ICE candidate descriptors, media tracks and streams are opaque
to the logic under study; they are represented by `Nat` tags.  Stateful
JavaScript (React state updates, mutation of the `pc` object) is embedded
as explicit state passing on the structures below.  Asynchronous calls are
modelled by their state effect at completion; React closure staleness and
callback interleaving are outside the model.

Each `addIceCandidate` call on a connection is recorded in the `applied`
trace together with the value of `remoteDescription`-is-set at the moment
of the call: an entry flagged `false` is exactly an application that hits
the InvalidState error branch of the underlying addIceCandidate.
-/

namespace LiveClass

/-- `shouldInitiate` from index.js line 285 (and identically lines 993-995):
`(myId, otherId) => myId > otherId`.  Participant ids are numeric
(`sender = parseInt(sender)`). -/
def shouldInitiate (myId otherId : Nat) : Bool :=
  decide (myId > otherId)

/-- A relayed signaling envelope payload (`data.type` of a `signaling`
message): `offer`, `answer` or `candidate`, with the SDP blob or ICE
candidate descriptor carried as an opaque tag. -/
inductive Envelope where
  | offer (sdp : Nat)
  | answer (sdp : Nat)
  | candidate (c : Nat)
deriving Repr, DecidableEq

/-- The state of one `RTCPeerConnection` as the signaling code observes and
mutates it: whether `pc.remoteDescription` / `pc.localDescription` are set,
the `pc.pendingCandidates` property (absent = `none`, mirroring the
JavaScript `delete`), the trace of `addIceCandidate` calls (each paired
with whether the remote description was set at call time), and counters
for the offer/answer envelopes sent on behalf of this connection. -/
structure PeerConn where
  remoteDescSet : Bool
  localDescSet : Bool
  pending : Option (List Nat)
  applied : List (Nat × Bool)
  offersSent : Nat
  answersSent : Nat
deriving Repr, DecidableEq

/-- A freshly constructed connection (`createPeerConnection`, lines 224-283):
no descriptions, no `pendingCandidates` property, nothing applied or sent. -/
def freshConn : PeerConn :=
  { remoteDescSet := false, localDescSet := false, pending := none
    applied := [], offersSent := 0, answersSent := 0 }

/-- One `pc.addIceCandidate(new RTCIceCandidate(c))` call: recorded in the
trace together with the current remote-description flag (a `false` flag is
an InvalidState application). -/
def addIceCandidate (pc : PeerConn) (c : Nat) : PeerConn :=
  { pc with applied := pc.applied ++ [(c, pc.remoteDescSet)] }

/-- `processPendingCandidates` (index.js lines 357-366): if
`pc.pendingCandidates && pc.remoteDescription`, apply each buffered
candidate in order and then `delete pc.pendingCandidates`. -/
def processPendingCandidates (pc : PeerConn) : PeerConn :=
  if pc.pending.isSome && pc.remoteDescSet then
    let pc1 := (pc.pending.getD []).foldl addIceCandidate pc
    { pc1 with pending := none }
  else pc

/-- `handleSignaling` (index.js lines 312-355), first implementation,
restricted to its effect on the sender's connection:
* `offer`: set the remote description, create and set a local answer, send
  the answer envelope, then flush buffered candidates (guarded by
  `pc.pendingCandidates && pc.remoteDescription`);
* `answer`: set the remote description, then flush buffered candidates
  (same guard);
* `candidate` (lines 339-347): if `pc.remoteDescription` is set, apply the
  candidate immediately; otherwise push it onto `pc.pendingCandidates`
  (creating the array if absent). -/
def handleSignalingConn (pc : PeerConn) (e : Envelope) : PeerConn :=
  match e with
  | .offer _ =>
      let pc1 := { pc with remoteDescSet := true, localDescSet := true,
                           answersSent := pc.answersSent + 1 }
      if pc1.pending.isSome && pc1.remoteDescSet then
        processPendingCandidates pc1
      else pc1
  | .answer _ =>
      let pc1 := { pc with remoteDescSet := true }
      if pc1.pending.isSome && pc1.remoteDescSet then
        processPendingCandidates pc1
      else pc1
  | .candidate c =>
      if pc.remoteDescSet then addIceCandidate pc c
      else { pc with pending := some (pc.pending.getD [] ++ [c]) }

/-- The first implementation's signaling step relation for one connection,
run from a fresh connection over a trace of inbound envelopes. -/
def run (es : List Envelope) : PeerConn :=
  es.foldl handleSignalingConn freshConn

/-- `handleSignaling` (index.js lines 1019-1050), second implementation,
restricted to its effect on the sender's connection.  Its `candidate`
branch (lines 1041-1043) calls `pc.addIceCandidate` unconditionally —
there is no pending-candidate buffer at all. -/
def handleSignalingConn2 (pc : PeerConn) (e : Envelope) : PeerConn :=
  match e with
  | .offer _ =>
      { pc with remoteDescSet := true, localDescSet := true,
                answersSent := pc.answersSent + 1 }
  | .answer _ => { pc with remoteDescSet := true }
  | .candidate c => addIceCandidate pc c

/-- The second implementation's signaling step relation for one connection,
run from a fresh connection over a trace of inbound envelopes. -/
def run2 (es : List Envelope) : PeerConn :=
  es.foldl handleSignalingConn2 freshConn

/-- Does an envelope set the remote description (`offer` or `answer`)? -/
def isDescMsg : Envelope → Bool
  | .offer _ => true
  | .answer _ => true
  | .candidate _ => false

/-- Has a remote-description-setting envelope occurred in the trace? -/
def hasDesc (es : List Envelope) : Bool := es.any isDescMsg

/-- The ICE candidate payload of an envelope, when it is one. -/
def candOf : Envelope → Option Nat
  | .candidate c => some c
  | _ => none

/-- The candidate payloads of a trace, in arrival order. -/
def cands (es : List Envelope) : List Nat := es.filterMap candOf

example : run [Envelope.candidate 5, Envelope.candidate 7, Envelope.offer 0]
    = { remoteDescSet := true, localDescSet := true, pending := none,
        applied := [(5, true), (7, true)], offersSent := 0, answersSent := 1 } := by
  decide

example : run2 [Envelope.candidate 3]
    = { freshConn with applied := [(3, false)] } := by decide

/-! ### The session registry (first implementation)

The registry `peerConnections` maps participant ids to connections.  A
JavaScript object holds at most one value per key; we embed it as an
association list in insertion order, with `lookupPC` returning the first
binding and `updatePC` replacing it in place. -/

/-- First binding of a participant id in the registry. -/
def lookupPC : List (Nat × PeerConn) → Nat → Option PeerConn
  | [], _ => none
  | (i, pc) :: rest, id => if i = id then some pc else lookupPC rest id

/-- Replace the first binding of a participant id in the registry. -/
def updatePC : List (Nat × PeerConn) → Nat → PeerConn → List (Nat × PeerConn)
  | [], _, _ => []
  | (i, pc) :: rest, id, pc1 =>
      if i = id then (i, pc1) :: rest else (i, pc) :: updatePC rest id pc1

/-- The connection the roster effect creates for a newly seen participant
(index.js lines 287-310): `createPeerConnection(p.id)`, then — when
`shouldInitiate(user.id, p.id)` — create an offer, set it as the local
description and send the offer envelope. -/
def rosterNewConn (myId p : Nat) : PeerConn :=
  if shouldInitiate myId p then
    { freshConn with localDescSet := true, offersSent := 1 }
  else freshConn

/-- The roster-update effect (index.js lines 287-310): for each roster
entry that is not the local user and has no registered connection, create
one (initiating an offer when the tie-break says so).  The guard is read
against the registry as it evolves (explicit state passing). -/
def rosterStep (myId : Nat) (peers : List (Nat × PeerConn)) :
    List Nat → List (Nat × PeerConn)
  | [] => peers
  | p :: ps =>
      if p ≠ myId ∧ lookupPC peers p = none then
        rosterStep myId (peers ++ [(p, rosterNewConn myId p)]) ps
      else rosterStep myId peers ps

/-- Routing of one inbound signaling envelope (index.js lines 312-318):
`let pc = peerConnections[sender]; if (!pc) pc = createPeerConnection(sender)`,
then the envelope is handled on that connection. -/
def signalStep (peers : List (Nat × PeerConn)) (sender : Nat) (e : Envelope) :
    List (Nat × PeerConn) :=
  match lookupPC peers sender with
  | some pc => updatePC peers sender (handleSignalingConn pc e)
  | none => peers ++ [(sender, handleSignalingConn freshConn e)]

/-- The events that touch the registry: a roster update, an inbound
signaling envelope, and `leaveCall` (index.js lines 507-525), which closes
every connection and resets the registry to empty. -/
inductive SysEvent where
  | roster (ps : List Nat)
  | signal (sender : Nat) (e : Envelope)
  | leave
deriving Repr, DecidableEq

/-- One registry step. -/
def sysStep (myId : Nat) (peers : List (Nat × PeerConn)) :
    SysEvent → List (Nat × PeerConn)
  | .roster ps => rosterStep myId peers ps
  | .signal s e => signalStep peers s e
  | .leave => []

/-- The registry reached from an empty registry by a trace of events. -/
def runSys (myId : Nat) (es : List SysEvent) : List (Nat × PeerConn) :=
  es.foldl (sysStep myId) []

/-! ### Screen-share renegotiation (first implementation)

`toggleScreenShare` (index.js lines 399-485) loops over all registered
connections.  Its per-connection body is wrapped in its own try/catch, so a
throw for one connection is logged and the loop continues.  We track, for
each connection, the tracks currently held by its video and audio senders
and a `failing` flag abstracting "the awaited per-connection step throws". -/

/-- The sender state of one connection during renegotiation, plus the
environment's choice of whether this connection's async step throws. -/
structure MediaSess where
  videoTracks : List Nat
  audioTracks : List Nat
  failing : Bool
deriving Repr, DecidableEq

/-- The outcome of a renegotiation loop: the new registry, the targets an
offer envelope was sent to, and the connections whose step threw and was
caught and logged. -/
structure RenegResult where
  registry : List (Nat × MediaSess)
  offerTargets : List Nat
  errorIds : List Nat
deriving Repr, DecidableEq

/-- The screen-share start branch (index.js lines 410-428): for every
connection, remove every sender holding a video track, `addTrack` the
screen track, create and set a local offer and send it; a throw is caught
per connection (`catch (err) { console.error(...) }`) and the loop goes on. -/
def toggleScreenShareStart (screenTrack : Nat) :
    List (Nat × MediaSess) → RenegResult
  | [] => ⟨[], [], []⟩
  | (id, s) :: rest =>
      let r := toggleScreenShareStart screenTrack rest
      if s.failing then
        ⟨(id, s) :: r.registry, r.offerTargets, id :: r.errorIds⟩
      else
        ⟨(id, { s with videoTracks := [screenTrack] }) :: r.registry,
         id :: r.offerTargets, r.errorIds⟩

/-- The screen-share stop branch (index.js lines 444-467): for every
connection, remove every video sender, re-add the camera track when the
local stream has one, create and set a local offer and send it; throws are
caught per connection. -/
def toggleScreenShareStop (cameraTrack : Option Nat) :
    List (Nat × MediaSess) → RenegResult
  | [] => ⟨[], [], []⟩
  | (id, s) :: rest =>
      let r := toggleScreenShareStop cameraTrack rest
      if s.failing then
        ⟨(id, s) :: r.registry, r.offerTargets, id :: r.errorIds⟩
      else
        ⟨(id, { s with videoTracks := cameraTrack.toList }) :: r.registry,
         id :: r.offerTargets, r.errorIds⟩

/-! ### Session teardown by id (liveClass.js) -/

/-- One remote connection entry of the meeting-slice registry
(`state.connections`): its participant id, its buffered candidate queue,
carried here to show teardown discards it with the entry. -/
structure RemoteConn where
  userId : String
  pendingCandidates : List Nat
deriving Repr, DecidableEq

/-- The meeting-slice remote state: the connection registry plus a log of
the underlying connections that have been closed. -/
structure RemoteState where
  connections : List RemoteConn
  closedLog : List String
deriving Repr, DecidableEq

/-- Modelled from the spec: `destroyRemoteConnection` is imported by
liveClass.js from `../../../redux/meetingSlice`, which is not present
under src/.  Per §4.1 `destroySession`, it closes the underlying
connection, discards its buffered candidates and removes the registry
entry. -/
def destroyRemoteConnection (st : RemoteState) (c : RemoteConn) : RemoteState :=
  { connections := st.connections.filter (fun x => x.userId != c.userId)
    closedLog := st.closedLog ++ [c.userId] }

/-- `String(id).split(':')[0]` — the participant id part of a composite
video-box id such as `"7:screen"`: the characters before the first `':'`. -/
def baseId (id : String) : String := ⟨id.data.takeWhile (fun ch => ch ≠ ':')⟩

/-- `disconnectByIdComposite` (liveClass.js lines 479-485): look the base
id up in the registry; destroy the connection when found, do nothing when
not. -/
def disconnectByIdComposite (st : RemoteState) (id : String) : RemoteState :=
  let userId := baseId id
  match st.connections.find? (fun c => c.userId == userId) with
  | some conn => destroyRemoteConnection st conn
  | none => st

/-! ### Mic / camera enable-disable toggles (first implementation) -/

/-- A local media track: only its `enabled` property matters here. -/
structure MTrack where
  enabled : Bool
deriving Repr, DecidableEq

/-- The local capture stream: its audio and video track lists
(`getAudioTracks()` / `getVideoTracks()`). -/
structure LocalMedia where
  audioTracks : List MTrack
  videoTracks : List MTrack
deriving Repr, DecidableEq

/-- The page state the toggle handlers can reach: the optional local
stream, the peer-connection registry (with sender state), the outbox of
signaling envelopes already sent, and the two UI flags. -/
structure AVState where
  localStream : Option LocalMedia
  peers : List (Nat × MediaSess)
  outbox : List Envelope
  audioEnabled : Bool
  videoEnabled : Bool
deriving Repr, DecidableEq

/-- `toggleAudio` (index.js lines 389-397): when a local stream with a
first audio track exists, flip that track's `enabled` property and mirror
it into the `audioEnabled` flag; otherwise do nothing. -/
def toggleAudio (st : AVState) : AVState :=
  match st.localStream with
  | none => st
  | some ls =>
      match ls.audioTracks with
      | [] => st
      | t :: ts =>
          { st with
            localStream := some { ls with audioTracks := ⟨!t.enabled⟩ :: ts }
            audioEnabled := !t.enabled }

/-- `toggleVideo` (index.js lines 379-387): the same flip on the first
video track and the `videoEnabled` flag. -/
def toggleVideo (st : AVState) : AVState :=
  match st.localStream with
  | none => st
  | some ls =>
      match ls.videoTracks with
      | [] => st
      | t :: ts =>
          { st with
            localStream := some { ls with videoTracks := ⟨!t.enabled⟩ :: ts }
            videoEnabled := !t.enabled }

/-! ### The incoming-track handler (first implementation) -/

/-- The fields of a received remote track that the `ontrack` handler
(index.js lines 242-272) inspects. -/
structure RTrack where
  kind : String
  label : String
  contentHint : String
deriving Repr, DecidableEq

/-- One participant's remote-stream mapping (`remoteStreams[userId]`):
stream handles (opaque tags) keyed `screen`, `camera`, `audio`. -/
structure RemoteEntry where
  screen : Option Nat
  camera : Option Nat
  audio : Option Nat
deriving Repr, DecidableEq

/-- The `{}` a missing entry defaults to (`prev[remoteUserId] || {}`). -/
def emptyEntry : RemoteEntry := ⟨none, none, none⟩

/-- Is `pat` a contiguous sublist of the list?  (JavaScript
`String.prototype.includes`.) -/
def hasSubList (pat : List Char) : List Char → Bool
  | [] => pat.isEmpty
  | c :: rest => pat.isPrefixOf (c :: rest) || hasSubList pat rest

/-- `hay.includes(pat)` on strings. -/
def strIncludes (hay pat : String) : Bool := hasSubList pat.data hay.data

/-- `s.toLowerCase()`: lower-case every character. -/
def strToLower (s : String) : String := ⟨s.data.map Char.toLower⟩

/-- The screen-share classifier of the `ontrack` handler (lines 249-251):
`(event.track.label && event.track.label.toLowerCase().includes('screen'))
 || event.track.contentHint === 'screen'`. -/
def isScreenTrack (t : RTrack) : Bool :=
  (!(t.label == "") && strIncludes (strToLower t.label) "screen")
    || t.contentHint == "screen"

/-- The `ontrack` handler's update of `remoteStreams` (lines 242-272): a
video track is stored under `screen` or `camera` of the sender's entry
according to the classifier, an audio track under `audio`; any other kind
leaves the map unchanged, and so do all other participants' entries. -/
def ontrackUpdate (streams : Nat → Option RemoteEntry) (uid : Nat)
    (tr : RTrack) (streamId : Nat) : Nat → Option RemoteEntry :=
  let existing := (streams uid).getD emptyEntry
  if tr.kind == "video" then
    fun i =>
      if i = uid then
        some (if isScreenTrack tr then { existing with screen := some streamId }
              else { existing with camera := some streamId })
      else streams i
  else if tr.kind == "audio" then
    fun i =>
      if i = uid then some { existing with audio := some streamId }
      else streams i
  else streams

/-! ## Helper lemmas -/

theorem foldl_addIceCandidate (l : List Nat) (pc : PeerConn) :
    l.foldl addIceCandidate pc =
      { pc with applied := pc.applied ++ l.map (fun c => (c, pc.remoteDescSet)) } := by
  induction l generalizing pc with
  | nil => simp
  | cons c l ih =>
      rw [List.foldl_cons, ih]
      simp [addIceCandidate]

theorem run_append_one (es : List Envelope) (e : Envelope) :
    run (es ++ [e]) = handleSignalingConn (run es) e := by
  simp [run, List.foldl_append]

theorem hasDesc_append_one (es : List Envelope) (e : Envelope) :
    hasDesc (es ++ [e]) = (hasDesc es || isDescMsg e) := by
  simp [hasDesc]

theorem cands_append_one (es : List Envelope) (e : Envelope) :
    cands (es ++ [e]) = cands es ++ (candOf e).toList := by
  cases e <;> simp [cands, candOf]

/-- Full characterization of the first implementation's per-connection
signaling step relation: before any remote description arrives nothing has
been applied and the pending queue holds exactly the candidate payloads in
arrival order; from the first `offer`/`answer` on, the applied trace is
exactly the candidate payloads in arrival order, every application made
with the remote description set, and the queue is gone. -/
theorem run_characterization (es : List Envelope) :
    (hasDesc es = false →
        (run es).remoteDescSet = false ∧ (run es).applied = [] ∧
        (run es).pending.getD [] = cands es ∧
        ((run es).pending = none ↔ cands es = [])) ∧
    (hasDesc es = true →
        (run es).remoteDescSet = true ∧ (run es).pending = none ∧
        (run es).applied = (cands es).map (fun c => (c, true))) := by
  induction es using List.reverseRecOn with
  | nil =>
      constructor
      · intro _
        simp [run, freshConn, cands]
      · intro h
        simp [hasDesc] at h
  | append_singleton es e ih =>
      obtain ⟨hno, hyes⟩ := ih
      rw [run_append_one, hasDesc_append_one, cands_append_one]
      cases hd : hasDesc es with
      | false =>
          obtain ⟨h1, h2, h3, h4⟩ := hno hd
          cases e with
          | candidate c =>
              simp only [isDescMsg, Bool.or_false]
              constructor
              · intro _
                simp [handleSignalingConn, h1, h2, h3, candOf]
              · intro hcontra
                simp at hcontra
          | offer sdp =>
              simp only [isDescMsg, Bool.or_true]
              constructor
              · intro hcontra
                simp at hcontra
              · intro _
                cases hp : (run es).pending with
                | none =>
                    have hc : cands es = [] := h4.mp hp
                    simp [handleSignalingConn, processPendingCandidates, hp,
                          h2, hc, candOf]
                | some l =>
                    have hl : l = cands es := by
                      have := h3
                      rw [hp] at this
                      simpa using this
                    simp [handleSignalingConn, processPendingCandidates, hp,
                          foldl_addIceCandidate, h2, hl, candOf]
          | answer sdp =>
              simp only [isDescMsg, Bool.or_true]
              constructor
              · intro hcontra
                simp at hcontra
              · intro _
                cases hp : (run es).pending with
                | none =>
                    have hc : cands es = [] := h4.mp hp
                    simp [handleSignalingConn, processPendingCandidates, hp,
                          h2, hc, candOf]
                | some l =>
                    have hl : l = cands es := by
                      have := h3
                      rw [hp] at this
                      simpa using this
                    simp [handleSignalingConn, processPendingCandidates, hp,
                          foldl_addIceCandidate, h2, hl, candOf]
      | true =>
          obtain ⟨h1, h2, h3⟩ := hyes hd
          cases e with
          | candidate c =>
              simp only [isDescMsg, Bool.or_false]
              constructor
              · intro hcontra
                simp at hcontra
              · intro _
                simp [handleSignalingConn, addIceCandidate, h1, h2, h3, candOf]
          | offer sdp =>
              simp only [isDescMsg, Bool.or_true]
              constructor
              · intro hcontra
                simp at hcontra
              · intro _
                simp [handleSignalingConn, h1, h2, h3, candOf]
          | answer sdp =>
              simp only [isDescMsg, Bool.or_true]
              constructor
              · intro hcontra
                simp at hcontra
              · intro _
                simp [handleSignalingConn, h1, h2, h3, candOf]

theorem lookupPC_none_not_mem {l : List (Nat × PeerConn)} {p : Nat}
    (h : lookupPC l p = none) : p ∉ l.map Prod.fst := by
  induction l with
  | nil => simp
  | cons q l ih =>
      obtain ⟨i, pc⟩ := q
      by_cases hi : i = p
      · simp [lookupPC, hi] at h
      · simp only [lookupPC, if_neg hi] at h
        simp [Ne.symm hi, ih h]

theorem lookupPC_append_of_some {l : List (Nat × PeerConn)} {p : Nat}
    {pc : PeerConn} (l2 : List (Nat × PeerConn))
    (h : lookupPC l p = some pc) : lookupPC (l ++ l2) p = some pc := by
  induction l with
  | nil => simp [lookupPC] at h
  | cons q l ih =>
      obtain ⟨i, pc1⟩ := q
      by_cases hi : i = p
      · simp only [lookupPC, if_pos hi] at h ⊢
        exact h
      · simp only [lookupPC, if_neg hi] at h ⊢
        exact ih h

theorem keys_updatePC (l : List (Nat × PeerConn)) (id : Nat) (pc : PeerConn) :
    (updatePC l id pc).map Prod.fst = l.map Prod.fst := by
  induction l with
  | nil => simp [updatePC]
  | cons q l ih =>
      obtain ⟨i, pc1⟩ := q
      by_cases hi : i = id
      · simp [updatePC, hi]
      · simp [updatePC, hi, ih]

theorem lookupPC_updatePC_self {l : List (Nat × PeerConn)} {id : Nat}
    {pc : PeerConn} (pc1 : PeerConn) (h : lookupPC l id = some pc) :
    lookupPC (updatePC l id pc1) id = some pc1 := by
  induction l with
  | nil => simp [lookupPC] at h
  | cons q l ih =>
      obtain ⟨i, pc2⟩ := q
      by_cases hi : i = id
      · simp [updatePC, lookupPC, hi]
      · simp only [lookupPC, if_neg hi] at h
        simp [updatePC, lookupPC, hi, ih h]

theorem lookupPC_updatePC_ne (l : List (Nat × PeerConn)) {p id : Nat}
    (pc1 : PeerConn) (h : p ≠ id) :
    lookupPC (updatePC l id pc1) p = lookupPC l p := by
  induction l with
  | nil => simp [updatePC]
  | cons q l ih =>
      obtain ⟨i, pc2⟩ := q
      by_cases hi : i = id
      · subst hi
        simp [updatePC, lookupPC, Ne.symm h]
      · by_cases hp : i = p
        · subst hp
          simp [updatePC, lookupPC, hi]
        · simp [updatePC, lookupPC, hi, hp, ih]

theorem keys_nodup_append_one {l : List (Nat × PeerConn)} {p : Nat}
    (pc : PeerConn) (hn : (l.map Prod.fst).Nodup) (hp : p ∉ l.map Prod.fst) :
    ((l ++ [(p, pc)]).map Prod.fst).Nodup := by
  simp [List.nodup_append, hn, hp]

theorem rosterStep_keys_nodup (myId : Nat) (ps : List Nat) :
    ∀ peers : List (Nat × PeerConn), (peers.map Prod.fst).Nodup →
      ((rosterStep myId peers ps).map Prod.fst).Nodup := by
  induction ps with
  | nil => intro peers hn; simpa [rosterStep] using hn
  | cons p ps ih =>
      intro peers hn
      by_cases hc : p ≠ myId ∧ lookupPC peers p = none
      · rw [rosterStep, if_pos hc]
        exact ih _ (keys_nodup_append_one _ hn (lookupPC_none_not_mem hc.2))
      · rw [rosterStep, if_neg hc]
        exact ih _ hn

theorem rosterStep_lookup_preserved (myId : Nat) (ps : List Nat) :
    ∀ peers : List (Nat × PeerConn), ∀ {id : Nat} {pc : PeerConn},
      lookupPC peers id = some pc →
      lookupPC (rosterStep myId peers ps) id = some pc := by
  induction ps with
  | nil => intro peers id pc h; simpa [rosterStep] using h
  | cons p ps ih =>
      intro peers id pc h
      by_cases hc : p ≠ myId ∧ lookupPC peers p = none
      · rw [rosterStep, if_pos hc]
        exact ih _ (lookupPC_append_of_some _ h)
      · rw [rosterStep, if_neg hc]
        exact ih _ h

theorem sysStep_keys_nodup (myId : Nat) (peers : List (Nat × PeerConn))
    (ev : SysEvent) (hn : (peers.map Prod.fst).Nodup) :
    ((sysStep myId peers ev).map Prod.fst).Nodup := by
  cases ev with
  | roster ps => exact rosterStep_keys_nodup myId ps peers hn
  | signal s e =>
      rw [sysStep, signalStep]
      cases hl : lookupPC peers s with
      | some pc => rw [keys_updatePC]; exact hn
      | none => exact keys_nodup_append_one _ hn (lookupPC_none_not_mem hl)
  | leave => simp [sysStep]

theorem runSys_keys_nodup_from (myId : Nat) (es : List SysEvent) :
    ∀ peers : List (Nat × PeerConn), (peers.map Prod.fst).Nodup →
      ((es.foldl (sysStep myId) peers).map Prod.fst).Nodup := by
  induction es with
  | nil => intro peers hn; simpa using hn
  | cons ev es ih =>
      intro peers hn
      rw [List.foldl_cons]
      exact ih _ (sysStep_keys_nodup myId peers ev hn)

theorem shareStart_append (t : Nat) (l1 l2 : List (Nat × MediaSess)) :
    toggleScreenShareStart t (l1 ++ l2) =
      ⟨(toggleScreenShareStart t l1).registry
          ++ (toggleScreenShareStart t l2).registry,
       (toggleScreenShareStart t l1).offerTargets
          ++ (toggleScreenShareStart t l2).offerTargets,
       (toggleScreenShareStart t l1).errorIds
          ++ (toggleScreenShareStart t l2).errorIds⟩ := by
  induction l1 with
  | nil => simp [toggleScreenShareStart]
  | cons q l1 ih =>
      obtain ⟨id, s⟩ := q
      cases hf : s.failing
      · simp [toggleScreenShareStart, hf, ih]
      · simp [toggleScreenShareStart, hf, ih]

theorem shareStop_append (cam : Option Nat) (l1 l2 : List (Nat × MediaSess)) :
    toggleScreenShareStop cam (l1 ++ l2) =
      ⟨(toggleScreenShareStop cam l1).registry
          ++ (toggleScreenShareStop cam l2).registry,
       (toggleScreenShareStop cam l1).offerTargets
          ++ (toggleScreenShareStop cam l2).offerTargets,
       (toggleScreenShareStop cam l1).errorIds
          ++ (toggleScreenShareStop cam l2).errorIds⟩ := by
  induction l1 with
  | nil => simp [toggleScreenShareStop]
  | cons q l1 ih =>
      obtain ⟨id, s⟩ := q
      cases hf : s.failing
      · simp [toggleScreenShareStop, hf, ih]
      · simp [toggleScreenShareStop, hf, ih]

theorem find?_filter_ne_none (k : String) (l : List RemoteConn) :
    (l.filter (fun c => c.userId != k)).find? (fun c => c.userId == k)
      = none := by
  induction l with
  | nil => simp
  | cons c l ih =>
      by_cases hc : c.userId = k
      · simp [List.filter_cons, hc, ih]
      · have h1 : (c.userId != k) = true := by simp [hc]
        have h2 : (c.userId == k) = false := by simp [hc]
        simp [List.filter_cons, h1, List.find?, h2, ih]

theorem all_filter_ne (k : String) (l : List RemoteConn) :
    ((l.filter (fun c => c.userId != k)).all (fun c => c.userId != k)) = true := by
  induction l with
  | nil => simp
  | cons c l ih =>
      by_cases hc : c.userId = k
      · simp [List.filter_cons, hc, ih]
      · have h1 : (c.userId != k) = true := by simp [hc]
        simp [List.filter_cons, h1, ih]

/-! ## Claims -/

/-- Claim C1: for every pair of participants with distinct numeric ids `a`
and `b`, exactly one of `shouldInitiate a b` and `shouldInitiate b a` is
true, and it is determined solely by comparing the two ids: the side with
the larger id initiates the offer. -/
theorem c1_initiation_tiebreak (a b : Nat) (h : a ≠ b) :
    (shouldInitiate a b = !(shouldInitiate b a)) ∧
    (shouldInitiate a b = true ↔ b < a) := by
  constructor
  · by_cases hab : b < a
    · have hba : ¬a < b := by omega
      simp [shouldInitiate, hab, hba]
    · have hba : a < b := by omega
      simp [shouldInitiate, hab, hba]
  · simp [shouldInitiate]

theorem c1_witness :
    (5 : Nat) ≠ 3 ∧
    ((shouldInitiate 5 3 = !(shouldInitiate 3 5)) ∧
     (shouldInitiate 5 3 = true ↔ 3 < 5)) :=
  ⟨by decide, c1_initiation_tiebreak 5 3 (by decide)⟩

/-- Claim C2: in the first implementation, an ICE candidate envelope that
arrives before the session's remote description is set is not lost: while
no remote description has arrived, nothing is applied and the pending
queue holds exactly the candidate payloads in arrival order; once the
trace contains an `offer`/`answer`, the applied trace is exactly the
candidate payloads in arrival order (each applied exactly once, FIFO),
every application made with the remote description set. -/
theorem c2_candidate_buffer_fifo (es : List Envelope) :
    (hasDesc es = false →
        (run es).applied = [] ∧ (run es).pending.getD [] = cands es) ∧
    (hasDesc es = true →
        (run es).applied = (cands es).map (fun c => (c, true))) := by
  obtain ⟨hno, hyes⟩ := run_characterization es
  constructor
  · intro h
    obtain ⟨_, h2, h3, _⟩ := hno h
    exact ⟨h2, h3⟩
  · intro h
    exact (hyes h).2.2

theorem c2_witness :
    (hasDesc [Envelope.candidate 5, Envelope.candidate 7, Envelope.offer 0]
        = true ∧
     (run [Envelope.candidate 5, Envelope.candidate 7,
           Envelope.offer 0]).applied = [(5, true), (7, true)]) ∧
    (hasDesc [Envelope.candidate 5] = false ∧
     (run [Envelope.candidate 5]).applied = [] ∧
     (run [Envelope.candidate 5]).pending.getD [] = [5]) := by
  refine ⟨⟨by decide, ?_⟩, by decide, ?_, ?_⟩
  · have h := (c2_candidate_buffer_fifo
        [Envelope.candidate 5, Envelope.candidate 7, Envelope.offer 0]).2
        (by decide)
    rw [h]; decide
  · exact ((c2_candidate_buffer_fifo [Envelope.candidate 5]).1 (by decide)).1
  · have h := ((c2_candidate_buffer_fifo [Envelope.candidate 5]).1
        (by decide)).2
    rw [h]; decide

/-- Claim C3 (refuted by the second implementation, index.js lines
1041-1043): processing a `candidate` envelope for a connection with no
remote description does NOT append it to a pending queue — the candidate
is applied immediately (the applied-trace entry is flagged `false`,
meaning the remote description was unset at the `addIceCandidate` call)
and no pending queue is ever created. -/
theorem c3_candidate_not_buffered :
    (handleSignalingConn2 freshConn (Envelope.candidate 7)).pending = none ∧
    (handleSignalingConn2 freshConn (Envelope.candidate 7)).applied
        = [(7, false)] := by
  decide

/-- Claim C4 (refuted by the second implementation's step relation): the
state reached from a fresh connection by the one-envelope trace
`[candidate 3]` has applied the candidate with the remote description
unset — exactly the InvalidState error branch the claim says is
unreachable. -/
theorem c4_invalid_state_reached :
    (run2 [Envelope.candidate 3]).applied = [(3, false)] ∧
    (run2 [Envelope.candidate 3]).remoteDescSet = false := by
  decide

/-- Claim C5 (refuted by the first implementation, index.js lines
410-428): starting screen share with two live sessions that both already
hold a video sender does not replace tracks in place with zero offers —
it removes the video senders, adds the screen track and sends an offer to
both sessions (two offers where the claim requires zero). -/
theorem c5_share_start_sends_offers :
    toggleScreenShareStart 99
        [(1, ⟨[10], [20], false⟩), (2, ⟨[11], [21], false⟩)]
      = ⟨[(1, ⟨[99], [20], false⟩), (2, ⟨[99], [21], false⟩)], [1, 2], []⟩ ∧
    (toggleScreenShareStart 99
        [(1, ⟨[10], [20], false⟩), (2, ⟨[11], [21], false⟩)]).offerTargets.length
      = 2 := by
  decide

/-- Claim C6: in every registry state reachable from the empty registry,
participant ids are bound at most once, and no step replaces a live
connection by a new one: an existing entry is either left untouched,
removed wholesale by `leaveCall`, or evolved by the signaling handler for
an envelope from that same participant. -/
theorem c6_registry_single_session (myId : Nat) (es : List SysEvent) :
    ((runSys myId es).map Prod.fst).Nodup ∧
    (∀ (peers : List (Nat × PeerConn)) (ev : SysEvent) (id : Nat)
        (pc : PeerConn), lookupPC peers id = some pc →
      lookupPC (sysStep myId peers ev) id = none ∨
      lookupPC (sysStep myId peers ev) id = some pc ∨
      ∃ e, ev = SysEvent.signal id e ∧
        lookupPC (sysStep myId peers ev) id
          = some (handleSignalingConn pc e)) := by
  constructor
  · exact runSys_keys_nodup_from myId es [] (by simp)
  · intro peers ev id pc h
    cases ev with
    | roster ps =>
        exact Or.inr (Or.inl (rosterStep_lookup_preserved myId ps peers h))
    | signal s e =>
        by_cases hs : s = id
        · subst hs
          refine Or.inr (Or.inr ⟨e, rfl, ?_⟩)
          simp only [sysStep, signalStep]
          rw [h]
          exact lookupPC_updatePC_self _ h
        · refine Or.inr (Or.inl ?_)
          simp only [sysStep, signalStep]
          cases hl : lookupPC peers s with
          | some q =>
              rw [lookupPC_updatePC_ne _ _ (Ne.symm hs)]
              exact h
          | none => exact lookupPC_append_of_some _ h
    | leave =>
        left
        simp [sysStep, lookupPC]

theorem c6_witness :
    lookupPC [(3, freshConn)] 3 = some freshConn ∧
    (lookupPC (sysStep 5 [(3, freshConn)] SysEvent.leave) 3 = none ∨
     lookupPC (sysStep 5 [(3, freshConn)] SysEvent.leave) 3 = some freshConn ∨
     ∃ e, SysEvent.leave = SysEvent.signal 3 e ∧
       lookupPC (sysStep 5 [(3, freshConn)] SysEvent.leave) 3
         = some (handleSignalingConn freshConn e)) :=
  ⟨by decide,
   (c6_registry_single_session 5 []).2 [(3, freshConn)] SysEvent.leave 3
     freshConn (by decide)⟩

/-- Claim C7: during screen-share renegotiation (start or stop) across all
live sessions, a failing session is reported in the error list and left
unchanged, while every other session is processed exactly as it would be
in isolation — failures are isolated per session, the loop continues, and
there is no partial abort. -/
theorem c7_renegotiation_failure_isolated (t : Nat) (cam : Option Nat)
    (pre post : List (Nat × MediaSess)) (j : Nat) (sj : MediaSess)
    (hj : sj.failing = true) :
    toggleScreenShareStart t (pre ++ (j, sj) :: post) =
      ⟨(toggleScreenShareStart t pre).registry ++ (j, sj)
          :: (toggleScreenShareStart t post).registry,
       (toggleScreenShareStart t pre).offerTargets
          ++ (toggleScreenShareStart t post).offerTargets,
       (toggleScreenShareStart t pre).errorIds
          ++ j :: (toggleScreenShareStart t post).errorIds⟩ ∧
    toggleScreenShareStop cam (pre ++ (j, sj) :: post) =
      ⟨(toggleScreenShareStop cam pre).registry ++ (j, sj)
          :: (toggleScreenShareStop cam post).registry,
       (toggleScreenShareStop cam pre).offerTargets
          ++ (toggleScreenShareStop cam post).offerTargets,
       (toggleScreenShareStop cam pre).errorIds
          ++ j :: (toggleScreenShareStop cam post).errorIds⟩ := by
  constructor
  · rw [shareStart_append t pre ((j, sj) :: post)]
    simp [toggleScreenShareStart, hj]
  · rw [shareStop_append cam pre ((j, sj) :: post)]
    simp [toggleScreenShareStop, hj]

theorem c7_witness :
    (MediaSess.mk [12] [] true).failing = true ∧
    (toggleScreenShareStart 99
        ([(1, MediaSess.mk [10] [] false)]
          ++ (9, MediaSess.mk [12] [] true) :: [(2, MediaSess.mk [11] [] false)]) =
      ⟨(toggleScreenShareStart 99 [(1, MediaSess.mk [10] [] false)]).registry
          ++ (9, MediaSess.mk [12] [] true)
          :: (toggleScreenShareStart 99 [(2, MediaSess.mk [11] [] false)]).registry,
       (toggleScreenShareStart 99 [(1, MediaSess.mk [10] [] false)]).offerTargets
          ++ (toggleScreenShareStart 99 [(2, MediaSess.mk [11] [] false)]).offerTargets,
       (toggleScreenShareStart 99 [(1, MediaSess.mk [10] [] false)]).errorIds
          ++ 9 :: (toggleScreenShareStart 99 [(2, MediaSess.mk [11] [] false)]).errorIds⟩ ∧
    toggleScreenShareStop (some 5)
        ([(1, MediaSess.mk [10] [] false)]
          ++ (9, MediaSess.mk [12] [] true) :: [(2, MediaSess.mk [11] [] false)]) =
      ⟨(toggleScreenShareStop (some 5) [(1, MediaSess.mk [10] [] false)]).registry
          ++ (9, MediaSess.mk [12] [] true)
          :: (toggleScreenShareStop (some 5) [(2, MediaSess.mk [11] [] false)]).registry,
       (toggleScreenShareStop (some 5) [(1, MediaSess.mk [10] [] false)]).offerTargets
          ++ (toggleScreenShareStop (some 5) [(2, MediaSess.mk [11] [] false)]).offerTargets,
       (toggleScreenShareStop (some 5) [(1, MediaSess.mk [10] [] false)]).errorIds
          ++ 9 :: (toggleScreenShareStop (some 5) [(2, MediaSess.mk [11] [] false)]).errorIds⟩) :=
  ⟨rfl,
   c7_renegotiation_failure_isolated 99 (some 5)
     [(1, MediaSess.mk [10] [] false)] [(2, MediaSess.mk [11] [] false)] 9
     (MediaSess.mk [12] [] true) rfl⟩

/-- Claim C8: destroying a session by composite id is idempotent: with a
live connection for the base id, it removes that registry entry (with its
buffered candidates) and closes the underlying connection; with no live
connection, it is a no-op that changes nothing; and a second destroy of
the same id is a no-op. -/
theorem c8_destroy_idempotent (st : RemoteState) (id : String) :
    ((st.connections.find? (fun c => c.userId == baseId id)).isSome = true →
        (disconnectByIdComposite st id).connections
            = st.connections.filter (fun c => c.userId != baseId id) ∧
        ((disconnectByIdComposite st id).connections.all
            (fun c => c.userId != baseId id)) = true ∧
        (disconnectByIdComposite st id).closedLog
            = st.closedLog ++ [baseId id]) ∧
    (st.connections.find? (fun c => c.userId == baseId id) = none →
        disconnectByIdComposite st id = st) ∧
    disconnectByIdComposite (disconnectByIdComposite st id) id
        = disconnectByIdComposite st id := by
  cases hf : st.connections.find? (fun c => c.userId == baseId id) with
  | none =>
      refine ⟨?_, ?_, ?_⟩
      · intro hcontra
        simp at hcontra
      · intro _
        simp [disconnectByIdComposite, hf]
      · simp [disconnectByIdComposite, hf]
  | some conn =>
      have hpred := List.find?_some hf
      have huid : conn.userId = baseId id := by simpa using hpred
      have hconn : disconnectByIdComposite st id
          = destroyRemoteConnection st conn := by
        simp [disconnectByIdComposite, hf]
      have hrest : (destroyRemoteConnection st conn).connections.find?
          (fun c => c.userId == baseId id) = none := by
        simp [destroyRemoteConnection, huid, find?_filter_ne_none]
      refine ⟨?_, ?_, ?_⟩
      · intro _
        refine ⟨?_, ?_, ?_⟩
        · rw [hconn]
          simp [destroyRemoteConnection, huid]
        · rw [hconn]
          simp [destroyRemoteConnection, huid, all_filter_ne]
        · rw [hconn]
          simp [destroyRemoteConnection, huid]
      · intro hcontra
        simp at hcontra
      · rw [hconn]
        simp [disconnectByIdComposite, hrest]

theorem c8_witness :
    ((RemoteState.mk [RemoteConn.mk "7" [1, 2]] []).connections.find?
        (fun c => c.userId == baseId "7:screen")).isSome = true ∧
    (disconnectByIdComposite
        (RemoteState.mk [RemoteConn.mk "7" [1, 2]] []) "7:screen").connections
      = [] ∧
    (disconnectByIdComposite
        (RemoteState.mk [RemoteConn.mk "7" [1, 2]] []) "7:screen").closedLog
      = ["7"] ∧
    disconnectByIdComposite (RemoteState.mk [RemoteConn.mk "7" [1, 2]] []) "9"
      = RemoteState.mk [RemoteConn.mk "7" [1, 2]] [] := by
  have h1 := (c8_destroy_idempotent
      (RemoteState.mk [RemoteConn.mk "7" [1, 2]] []) "7:screen").1 (by decide)
  have h2 := (c8_destroy_idempotent
      (RemoteState.mk [RemoteConn.mk "7" [1, 2]] []) "9").2.1 (by decide)
  refine ⟨by decide, ?_, ?_, h2⟩
  · rw [h1.1]; decide
  · rw [h1.2.2]; decide

/-- Claim C9: toggling the microphone or camera only flips the `enabled`
flag of the first corresponding local track: it sends no signaling
envelope, touches no peer session or sender, leaves the other kind's
tracks and flag unchanged, and (when a first track exists) replaces that
track by the same track with `enabled` negated, mirroring the UI flag. -/
theorem c9_toggle_local_only (st : AVState) :
    ((toggleAudio st).peers = st.peers ∧
     (toggleAudio st).outbox = st.outbox ∧
     (toggleAudio st).videoEnabled = st.videoEnabled ∧
     (toggleAudio st).localStream.map LocalMedia.videoTracks
        = st.localStream.map LocalMedia.videoTracks ∧
     (∀ ls t ts, st.localStream = some ls → ls.audioTracks = t :: ts →
        (toggleAudio st).localStream
            = some { ls with audioTracks := ⟨!t.enabled⟩ :: ts } ∧
        (toggleAudio st).audioEnabled = !t.enabled)) ∧
    ((toggleVideo st).peers = st.peers ∧
     (toggleVideo st).outbox = st.outbox ∧
     (toggleVideo st).audioEnabled = st.audioEnabled ∧
     (toggleVideo st).localStream.map LocalMedia.audioTracks
        = st.localStream.map LocalMedia.audioTracks ∧
     (∀ ls t ts, st.localStream = some ls → ls.videoTracks = t :: ts →
        (toggleVideo st).localStream
            = some { ls with videoTracks := ⟨!t.enabled⟩ :: ts } ∧
        (toggleVideo st).videoEnabled = !t.enabled)) := by
  constructor
  · cases hls : st.localStream with
    | none =>
        have hta : toggleAudio st = st := by simp [toggleAudio, hls]
        rw [hta]
        refine ⟨rfl, rfl, rfl, by rw [hls], ?_⟩
        intro ls t ts h1 h2
        exact Option.noConfusion h1
    | some ls =>
        cases hts : ls.audioTracks with
        | nil =>
            have hta : toggleAudio st = st := by simp [toggleAudio, hls, hts]
            rw [hta]
            refine ⟨rfl, rfl, rfl, by rw [hls], ?_⟩
            intro ls1 t ts h1 h2
            injection h1 with h1
            subst h1
            rw [hts] at h2
            simp at h2
        | cons t ts =>
            have hta : toggleAudio st = { st with
                localStream := some { ls with audioTracks := ⟨!t.enabled⟩ :: ts }
                audioEnabled := !t.enabled } := by
              simp [toggleAudio, hls, hts]
            rw [hta]
            refine ⟨rfl, rfl, rfl, by simp, ?_⟩
            intro ls1 t1 ts1 h1 h2
            injection h1 with h1
            subst h1
            rw [hts] at h2
            injection h2 with h2a h2b
            subst h2a
            subst h2b
            exact ⟨rfl, rfl⟩
  · cases hls : st.localStream with
    | none =>
        have htv : toggleVideo st = st := by simp [toggleVideo, hls]
        rw [htv]
        refine ⟨rfl, rfl, rfl, by rw [hls], ?_⟩
        intro ls t ts h1 h2
        exact Option.noConfusion h1
    | some ls =>
        cases hts : ls.videoTracks with
        | nil =>
            have htv : toggleVideo st = st := by simp [toggleVideo, hls, hts]
            rw [htv]
            refine ⟨rfl, rfl, rfl, by rw [hls], ?_⟩
            intro ls1 t ts h1 h2
            injection h1 with h1
            subst h1
            rw [hts] at h2
            simp at h2
        | cons t ts =>
            have htv : toggleVideo st = { st with
                localStream := some { ls with videoTracks := ⟨!t.enabled⟩ :: ts }
                videoEnabled := !t.enabled } := by
              simp [toggleVideo, hls, hts]
            rw [htv]
            refine ⟨rfl, rfl, rfl, by simp, ?_⟩
            intro ls1 t1 ts1 h1 h2
            injection h1 with h1
            subst h1
            rw [hts] at h2
            injection h2 with h2a h2b
            subst h2a
            subst h2b
            exact ⟨rfl, rfl⟩

theorem c9_witness :
    (AVState.mk (some (LocalMedia.mk [MTrack.mk true] [MTrack.mk false]))
        [(3, MediaSess.mk [10] [20] false)] [] true false).localStream
      = some (LocalMedia.mk [MTrack.mk true] [MTrack.mk false]) ∧
    (LocalMedia.mk [MTrack.mk true] [MTrack.mk false]).audioTracks
      = MTrack.mk true :: [] ∧
    (toggleAudio (AVState.mk
        (some (LocalMedia.mk [MTrack.mk true] [MTrack.mk false]))
        [(3, MediaSess.mk [10] [20] false)] [] true false)).peers
      = [(3, MediaSess.mk [10] [20] false)] ∧
    (toggleAudio (AVState.mk
        (some (LocalMedia.mk [MTrack.mk true] [MTrack.mk false]))
        [(3, MediaSess.mk [10] [20] false)] [] true false)).outbox = [] ∧
    (toggleAudio (AVState.mk
        (some (LocalMedia.mk [MTrack.mk true] [MTrack.mk false]))
        [(3, MediaSess.mk [10] [20] false)] [] true false)).localStream
      = some (LocalMedia.mk [MTrack.mk false] [MTrack.mk false]) ∧
    (toggleAudio (AVState.mk
        (some (LocalMedia.mk [MTrack.mk true] [MTrack.mk false]))
        [(3, MediaSess.mk [10] [20] false)] [] true false)).audioEnabled
      = false := by
  have h := c9_toggle_local_only (AVState.mk
      (some (LocalMedia.mk [MTrack.mk true] [MTrack.mk false]))
      [(3, MediaSess.mk [10] [20] false)] [] true false)
  have hmain := h.1.2.2.2.2 (LocalMedia.mk [MTrack.mk true] [MTrack.mk false])
      (MTrack.mk true) [] rfl rfl
  refine ⟨rfl, rfl, h.1.1, h.1.2.1, ?_, ?_⟩
  · rw [hmain.1]; decide
  · rw [hmain.2]; decide

/-- Claim C10: the incoming-track handler records a video track under the
sender's `screen` key exactly when the classifier fires — the label
contains the substring "screen" case-insensitively or the content hint
equals "screen" — and under `camera` otherwise; an audio track is always
recorded under `audio`; every other participant's entry, and the whole
map for any other track kind, is unchanged. -/
theorem c10_ontrack_classification (streams : Nat → Option RemoteEntry)
    (uid : Nat) (tr : RTrack) (sid : Nat) :
    (∀ i, i ≠ uid → ontrackUpdate streams uid tr sid i = streams i) ∧
    (isScreenTrack tr = true ↔
        (strIncludes (strToLower tr.label) "screen" = true ∨
         tr.contentHint = "screen")) ∧
    (tr.kind = "video" → isScreenTrack tr = true →
        ontrackUpdate streams uid tr sid uid
          = some { (streams uid).getD emptyEntry with screen := some sid }) ∧
    (tr.kind = "video" → isScreenTrack tr = false →
        ontrackUpdate streams uid tr sid uid
          = some { (streams uid).getD emptyEntry with camera := some sid }) ∧
    (tr.kind = "audio" →
        ontrackUpdate streams uid tr sid uid
          = some { (streams uid).getD emptyEntry with audio := some sid }) ∧
    (tr.kind ≠ "video" → tr.kind ≠ "audio" →
        ontrackUpdate streams uid tr sid = streams) := by
  refine ⟨?_, ?_, ?_, ?_, ?_, ?_⟩
  · intro i hi
    by_cases hv : tr.kind = "video"
    · simp [ontrackUpdate, hv, hi]
    · by_cases ha : tr.kind = "audio"
      · have hv1 : (tr.kind == "video") = false := by simp [hv]
        simp [ontrackUpdate, hv1, ha, hi]
      · have hv1 : (tr.kind == "video") = false := by simp [hv]
        have ha1 : (tr.kind == "audio") = false := by simp [ha]
        simp [ontrackUpdate, hv1, ha1]
  · by_cases hl : tr.label = ""
    · have hlow : strToLower "" = "" := by decide
      have hinc : strIncludes "" "screen" = false := by decide
      simp [isScreenTrack, hl, hlow, hinc]
    · have hl1 : (tr.label == "") = false := by simp [hl]
      simp [isScreenTrack, hl1]
  · intro hv hs
    simp [ontrackUpdate, hv, hs]
  · intro hv hs
    simp [ontrackUpdate, hv, hs]
  · intro ha
    by_cases hv : tr.kind = "video"
    · rw [hv] at ha
      simp at ha
    · have hv1 : (tr.kind == "video") = false := by simp [hv]
      simp [ontrackUpdate, hv1, ha]
  · intro hv ha
    have hv1 : (tr.kind == "video") = false := by simp [hv]
    have ha1 : (tr.kind == "audio") = false := by simp [ha]
    simp [ontrackUpdate, hv1, ha1]

theorem c10_witness :
    (RTrack.mk "video" "Screen Capture 1" "").kind = "video" ∧
    isScreenTrack (RTrack.mk "video" "Screen Capture 1" "") = true ∧
    (RTrack.mk "video" "FaceTime HD" "").kind = "video" ∧
    isScreenTrack (RTrack.mk "video" "FaceTime HD" "") = false ∧
    (RTrack.mk "audio" "Built-in Mic" "").kind = "audio" ∧
    ontrackUpdate (fun i => if i = 4 then some (RemoteEntry.mk none (some 40) (some 41)) else none)
        4 (RTrack.mk "video" "Screen Capture 1" "") 77 4
      = some (RemoteEntry.mk (some 77) (some 40) (some 41)) ∧
    ontrackUpdate (fun i => if i = 4 then some (RemoteEntry.mk none (some 40) (some 41)) else none)
        4 (RTrack.mk "video" "FaceTime HD" "") 77 4
      = some (RemoteEntry.mk none (some 77) (some 41)) ∧
    ontrackUpdate (fun i => if i = 4 then some (RemoteEntry.mk none (some 40) (some 41)) else none)
        4 (RTrack.mk "audio" "Built-in Mic" "") 78 4
      = some (RemoteEntry.mk none (some 40) (some 78)) ∧
    ontrackUpdate (fun i => if i = 4 then some (RemoteEntry.mk none (some 40) (some 41)) else none)
        4 (RTrack.mk "video" "Screen Capture 1" "") 77 9 = none := by
  have h1 := c10_ontrack_classification
      (fun i => if i = 4 then some (RemoteEntry.mk none (some 40) (some 41)) else none)
      4 (RTrack.mk "video" "Screen Capture 1" "") 77
  have h2 := c10_ontrack_classification
      (fun i => if i = 4 then some (RemoteEntry.mk none (some 40) (some 41)) else none)
      4 (RTrack.mk "video" "FaceTime HD" "") 77
  have h3 := c10_ontrack_classification
      (fun i => if i = 4 then some (RemoteEntry.mk none (some 40) (some 41)) else none)
      4 (RTrack.mk "audio" "Built-in Mic" "") 78
  refine ⟨rfl, by decide, rfl, by decide, rfl, ?_, ?_, ?_, ?_⟩
  · rw [h1.2.2.1 rfl (by decide)]; decide
  · rw [h2.2.2.2.1 rfl (by decide)]; decide
  · rw [h3.2.2.2.2.1 rfl]; decide
  · rw [h1.1 9 (by decide)]; decide

end LiveClass
